import Mathlib

/-!
Verification of the local domain-socket stream server `us_xfr_sv.c`
(TLPI listing 57-3 as carried in this repository).

The server's `main` is embedded shallowly:

* the setup phase (`socket`, path-length check, `remove`, `memset`/`strncpy`
  of the address structure, `bind`, `listen`) becomes `setup`, driven by a
  `SetupEnv` oracle recording which system calls succeed; a `SetupStep`
  trace records the order in which resources come into existence;
* the per-connection transfer loop
  `while ((numRead = read(cfd, buf, BUF_SIZE)) > 0) ...` becomes `relay`,
  driven by oracles for the values returned by `read` and `write`;
* the unbounded accept loop becomes `serveConns`, driven by a list of
  `AcceptEvent`s (each either an `accept` failure or an accepted connection
  with its own read/write/close oracle).

Bytes are `Nat`; a `read` returning `n > 0` is an event carrying the `n`
bytes placed in the buffer, `read` returning `0` carries the empty list, and
a `read` error is a separate event. `write`'s return value is an `Int` so
that the error return `-1` is representable exactly as in C.
-/

namespace UsXfr

/-- A byte of the transferred stream (0..255 in practice). -/
abbrev Byte := Nat

/-- Result of one `read(cfd, buf, BUF_SIZE)` call: `ok data` is a return of
`data.length` with those bytes in the buffer (`data = []` is the
end-of-stream return `0`); `err` is the return `-1`. -/
inductive ReadEvent where
  | ok (data : List Byte)
  | err
deriving DecidableEq

/-- How one pass of the transfer loop (one connection) ends.  The payload is
the state of the output sink (stdout) at that moment.  `fatalWrite` models
the call `fatal("partial/failed write")`, reached whenever
`write(STDOUT_FILENO, buf, numRead) != numRead`; `fatalRead` models
`errExit("read")`, reached when `numRead == -1` after the loop. -/
inductive RelayResult where
  | doneEof (sink : List Byte)
  | fatalRead (sink : List Byte)
  | fatalWrite (sink : List Byte)
deriving DecidableEq

/-- The transfer loop of `main` (us_xfr_sv.c lines 74-79):
`while ((numRead = read(cfd, buf, BUF_SIZE)) > 0)
   if (write(STDOUT_FILENO, buf, numRead) != numRead)
     fatal("partial/failed write");
 if (numRead == -1) errExit("read");`
`reads` supplies the successive `read` returns, `ws` the successive `write`
returns, `sink` is the bytes already on stdout.  A `write` returning
`w ≠ numRead` triggers `fatal`, but a short write (`0 < w < numRead`) has
already transferred the first `w` bytes of the buffer to stdout when
`fatal` fires, so the abort sink carries `data.take w.toNat` (which is `[]`
for the error return `-1`; `write` never returns more than the requested
count).  `none` means the oracle script ran out before the loop finished
(the run is not determined). -/
def relay : List ReadEvent → List Int → List Byte → Option RelayResult
  | [], _, _ => none
  | ReadEvent.err :: _, _, sink => some (RelayResult.fatalRead sink)
  | ReadEvent.ok data :: rest, ws, sink =>
    if data = [] then some (RelayResult.doneEof sink)
    else
      match ws with
      | [] => none
      | w :: wrest =>
        if w = (data.length : Int) then relay rest wrest (sink ++ data)
        else some (RelayResult.fatalWrite (sink ++ data.take w.toNat))

/-- One accepted connection, as the relay pass sees it: the `read` returns,
the `write` returns, and whether the final `close(cfd)` succeeds. -/
structure Conn where
  reads : List ReadEvent
  writes : List Int
  closeOk : Bool
deriving DecidableEq

/-- One iteration's worth of input to the accept loop: either `accept`
returns `-1` (`fail`), or it yields a connection. -/
inductive AcceptEvent where
  | fail
  | conn (c : Conn)
deriving DecidableEq

/-- The process-fatal conditions of the running server: `errExit("accept")`,
`errExit("read")`, and `fatal("partial/failed write")`. -/
inductive Fault where
  | acceptFailed
  | readFailed
  | writeFailed
deriving DecidableEq

/-- Observable state of the server after consuming an accept-loop script:
either it is back at the top of the `for (;;)` loop waiting to accept
(`awaitingAccept`), or a fatal condition has aborted the whole process
(`aborted`).  `sink` is everything written to stdout, `logs` everything
reported via `errMsg` (non-fatal diagnostics). -/
inductive ServerOutcome where
  | awaitingAccept (sink : List Byte) (logs : List String)
  | aborted (f : Fault) (sink : List Byte) (logs : List String)
deriving DecidableEq

/-- The accept loop of `main` (us_xfr_sv.c lines 62-83): accept a
connection, run the transfer loop on it, then `if (close(cfd) == -1)
errMsg("close");` and iterate.  A `read` error or a partial/failed `write`
aborts the process; a `close` failure is only logged. -/
def serveConns : List AcceptEvent → List Byte → List String → Option ServerOutcome
  | [], sink, logs => some (ServerOutcome.awaitingAccept sink logs)
  | AcceptEvent.fail :: _, sink, logs =>
      some (ServerOutcome.aborted Fault.acceptFailed sink logs)
  | AcceptEvent.conn c :: rest, sink, logs =>
    match relay c.reads c.writes sink with
    | none => none
    | some (RelayResult.doneEof out) =>
        serveConns rest out (logs ++ (if c.closeOk then [] else ["close"]))
    | some (RelayResult.fatalRead out) =>
        some (ServerOutcome.aborted Fault.readFailed out logs)
    | some (RelayResult.fatalWrite out) =>
        some (ServerOutcome.aborted Fault.writeFailed out logs)

/-- Modelled from the spec: the TLPI support library's `errExit`/`fatal`
(declared in `tlpi_hdr.h`, not among these sources) print a diagnostic and
terminate the process with a non-zero exit status (`EXIT_FAILURE`), while
`errMsg` only prints and returns.  The exit code observable at the process
boundary: `none` while the server is still running. -/
def exitCodeOf : ServerOutcome → Option Nat
  | ServerOutcome.awaitingAccept _ _ => none
  | ServerOutcome.aborted _ _ _ => some 1

/-- A well-behaved connection script: the client's payload arrives
fragmented into `chunks`, then `read` returns `0`; every `write` returns
the full requested count. -/
def connOf (chunks : List (List Byte)) (closeOk : Bool) : Conn :=
  ⟨chunks.map ReadEvent.ok ++ [ReadEvent.ok []],
   chunks.map (fun c => (c.length : Int)), closeOk⟩

/-- The `errMsg("close")` diagnostics produced by a list of well-behaved
connections (one per connection whose `close` fails). -/
def closeLogs : List (List (List Byte) × Bool) → List String
  | [] => []
  | p :: rest => (if p.2 then [] else ["close"]) ++ closeLogs rest

/-! ### Setup phase -/

/-- Return of `remove(SV_SOCK_PATH)`: success, failure with
`errno == ENOENT` (no such entry), or failure for any other reason. -/
inductive RemoveResult where
  | removedOk
  | errNoEnt
  | errOther
deriving DecidableEq

/-- Oracle for the setup-phase system calls of `main`. -/
structure SetupEnv where
  socketOk : Bool
  removeRes : RemoveResult
  bindOk : Bool
  listenOk : Bool
deriving DecidableEq

/-- Resource-creating / namespace-mutating actions of the setup phase, in
the order they happen. -/
inductive SetupStep where
  | socketCreated
  | removedEntry
  | bound
  | listening
deriving DecidableEq

/-- The setup-fatal conditions: `errExit("socket")`,
`fatal("Server socket path too long: %s")`, `errExit("remove-%s")`,
`errExit("bind")`, `errExit("listen")`. -/
inductive SetupFault where
  | socketFailed
  | pathTooLong
  | removeFailed
  | bindFailed
  | listenFailed
deriving DecidableEq

/-- Outcome of the setup phase: a fatal condition, or a live listening
socket whose address structure carries the given `sun_path` bytes. -/
inductive SetupResult where
  | fatal (f : SetupFault)
  | ready (sunPath : List Byte)
deriving DecidableEq

/-- Modelled from the spec: a SetupFatal condition surfaces at the process
boundary as a non-zero exit (`errExit`/`fatal` from the TLPI support
library, not among these sources). -/
def setupExitCode : SetupResult → Option Nat
  | SetupResult.fatal _ => some 1
  | SetupResult.ready _ => none

/-- `memset(&addr, 0, sizeof(struct sockaddr_un))` restricted to the
`sun_path` member: a region of `sz` zero bytes. -/
def memsetSunPath (sz : Nat) : List Byte :=
  List.replicate sz 0

/-- Effect of `strncpy(dst, src, n)` on a byte region `dst` of length
`≥ n`: the first `n` bytes become `src` truncated to `n` and NUL-padded to
`n` when `src` is shorter; bytes beyond position `n` keep their previous
contents. -/
def strncpyOn (dst src : List Byte) (n : Nat) : List Byte :=
  (src.take n ++ List.replicate (n - src.length) 0) ++ dst.drop n

/-- The `sun_path` bytes the code builds (us_xfr_sv.c lines 52-54):
`memset` the whole structure to zero, then
`strncpy(addr.sun_path, SV_SOCK_PATH, sizeof(addr.sun_path) - 1)`.
`path` is the configured socket path (without its terminating NUL), `sz` is
`sizeof(addr.sun_path)`. -/
def sunPathBytes (path : List Byte) (sz : Nat) : List Byte :=
  strncpyOn (memsetSunPath sz) path (sz - 1)

/-- The setup phase of `main` (us_xfr_sv.c lines 35-60), in source order:
`socket` first; then the check
`strlen(SV_SOCK_PATH) > sizeof(addr.sun_path) - 1`; then
`remove(SV_SOCK_PATH)` tolerating only `ENOENT`; then `memset`/`strncpy`,
`bind`, and `listen`.  Returns the trace of completed resource actions and
the result. -/
def setup (env : SetupEnv) (path : List Byte) (sz : Nat) :
    List SetupStep × SetupResult :=
  if env.socketOk = false then ([], SetupResult.fatal SetupFault.socketFailed)
  else if path.length > sz - 1 then
    ([SetupStep.socketCreated], SetupResult.fatal SetupFault.pathTooLong)
  else if env.removeRes = RemoveResult.errOther then
    ([SetupStep.socketCreated], SetupResult.fatal SetupFault.removeFailed)
  else
    let t := SetupStep.socketCreated ::
      (if env.removeRes = RemoveResult.removedOk then [SetupStep.removedEntry] else [])
    if env.bindOk = false then (t, SetupResult.fatal SetupFault.bindFailed)
    else if env.listenOk = false then
      (t ++ [SetupStep.bound], SetupResult.fatal SetupFault.listenFailed)
    else (t ++ [SetupStep.bound, SetupStep.listening],
          SetupResult.ready (sunPathBytes path sz))

/-! ### Basic lemmas about the transfer loop -/

/-- Unfolding: a `read` returning `0` ends the pass normally at once,
whatever the `write` oracle holds. -/
theorem relay_eof (rtl : List ReadEvent) (ws : List Int) (sink : List Byte) :
    relay (ReadEvent.ok [] :: rtl) ws sink = some (RelayResult.doneEof sink) := by
  simp [relay]

/-- Unfolding: a `read` returning `-1` aborts at once. -/
theorem relay_err (rtl : List ReadEvent) (ws : List Int) (sink : List Byte) :
    relay (ReadEvent.err :: rtl) ws sink = some (RelayResult.fatalRead sink) := by
  simp [relay]

/-- Running the loop through a block of non-empty chunks whose writes all
return the full count forwards those chunks to the sink and continues with
the rest of the script. -/
theorem relay_through_chunks (chunks : List (List Byte)) (rtl : List ReadEvent)
    (wtl : List Int) (sink : List Byte) (hnz : ∀ c ∈ chunks, c ≠ []) :
    relay (chunks.map ReadEvent.ok ++ rtl)
      (chunks.map (fun c => (c.length : Int)) ++ wtl) sink
      = relay rtl wtl (sink ++ chunks.flatten) := by
  induction chunks generalizing sink with
  | nil => simp
  | cons c cs ih =>
      have hc : c ≠ [] := hnz c (by simp)
      have ih2 := ih (sink ++ c) (fun d hd => hnz d (by simp [hd]))
      simp only [List.map_cons, List.cons_append, List.flatten_cons,
        ← List.append_assoc]
      rw [show relay (ReadEvent.ok c :: (cs.map ReadEvent.ok ++ rtl))
          ((c.length : Int) :: (cs.map (fun d => (d.length : Int)) ++ wtl)) sink
          = relay (cs.map ReadEvent.ok ++ rtl)
            (cs.map (fun d => (d.length : Int)) ++ wtl) (sink ++ c) by
        simp [relay, hc]]
      exact ih2

/-! ### Claims about the transfer loop -/

/-- C1: for every byte sequence `S` a client writes (arriving fragmented
into the non-empty `chunks`, then end-of-stream) and every behaviour of the
`write` oracle, a relay pass that completes normally leaves on the sink
exactly the prior sink contents followed by `S` — byte-for-byte, in order,
nothing dropped, duplicated, reordered or added; each positive read is
forwarded before the next read by construction of the loop. -/
theorem relay_normal_completion_exact (chunks : List (List Byte)) (ws : List Int)
    (sink out : List Byte) (hnz : ∀ c ∈ chunks, c ≠ [])
    (h : relay (chunks.map ReadEvent.ok ++ [ReadEvent.ok []]) ws sink
          = some (RelayResult.doneEof out)) :
    out = sink ++ chunks.flatten := by
  induction chunks generalizing ws sink with
  | nil =>
      simp [relay] at h
      simp [h.symm]
  | cons c cs ih =>
      have hc : c ≠ [] := hnz c (by simp)
      cases ws with
      | nil => simp [relay, hc] at h
      | cons w wrest =>
          by_cases hw : w = (c.length : Int)
          · have h2 : relay (cs.map ReadEvent.ok ++ [ReadEvent.ok []]) wrest
                (sink ++ c) = some (RelayResult.doneEof out) := by
              simpa [relay, hc, hw] using h
            have h3 := ih wrest (sink ++ c) (fun d hd => hnz d (by simp [hd])) h2
            simp [h3, List.append_assoc]
          · simp [relay, hc, hw] at h

/-- Witness for C1 at a concrete fragmentation. -/
theorem relay_normal_completion_exact_witness :
    (∀ c ∈ ([[1, 2], [3]] : List (List Byte)), c ≠ [])
    ∧ ([1, 2, 3] : List Byte) = [] ++ ([[1, 2], [3]] : List (List Byte)).flatten :=
  ⟨by decide,
   relay_normal_completion_exact [[1, 2], [3]] [2, 1] [] [1, 2, 3]
     (by decide) (by decide)⟩

/-- C7: a client that writes zero bytes and closes makes the very first
read return `0`: the relay pass ends normally at once, no forwarding
operation is ever invoked (the `write` oracle `ws` is arbitrary and
unconsumed), the sink is unchanged, and the server proceeds to the next
accept-loop iteration whether or not the close succeeds. -/
theorem zero_byte_client (ws : List Int) (ck : Bool) (rest : List AcceptEvent)
    (sink : List Byte) (logs : List String) :
    relay [ReadEvent.ok []] ws sink = some (RelayResult.doneEof sink)
    ∧ serveConns (AcceptEvent.conn ⟨[ReadEvent.ok []], ws, ck⟩ :: rest) sink logs
        = serveConns rest sink (logs ++ (if ck then [] else ["close"])) := by
  refine ⟨by simp [relay], ?_⟩
  simp [serveConns, relay]

/-- C2: a `read` returning an error during any relay pass (here: after the
non-empty chunks already forwarded) aborts the whole server process with a
non-zero exit; the pending remainder `rest` of the accept-loop script is
never consumed, so no further connection is ever served. -/
theorem read_error_aborts_server (chunks : List (List Byte))
    (rtl : List ReadEvent) (wtl : List Int) (ck : Bool)
    (rest : List AcceptEvent) (sink : List Byte) (logs : List String)
    (hnz : ∀ c ∈ chunks, c ≠ []) :
    serveConns (AcceptEvent.conn ⟨chunks.map ReadEvent.ok ++ ReadEvent.err :: rtl,
        chunks.map (fun c => (c.length : Int)) ++ wtl, ck⟩ :: rest) sink logs
      = some (ServerOutcome.aborted Fault.readFailed (sink ++ chunks.flatten) logs)
    ∧ exitCodeOf (ServerOutcome.aborted Fault.readFailed (sink ++ chunks.flatten) logs)
        = some 1 := by
  have hrel := relay_through_chunks chunks (ReadEvent.err :: rtl) wtl sink hnz
  exact ⟨by simp [serveConns, hrel, relay], rfl⟩

/-- Witness for C2: one chunk forwarded, then a read error; the single
pending further connection is never served. -/
theorem read_error_aborts_server_witness :
    (∀ c ∈ ([[7]] : List (List Byte)), c ≠ [])
    ∧ serveConns (AcceptEvent.conn ⟨[[7]].map ReadEvent.ok ++ ReadEvent.err :: [],
        [[7]].map (fun c => (c.length : Int)) ++ [], true⟩
          :: [AcceptEvent.conn ⟨[ReadEvent.ok []], [], true⟩]) [] []
        = some (ServerOutcome.aborted Fault.readFailed ([] ++ [[7]].flatten) [])
    ∧ exitCodeOf (ServerOutcome.aborted Fault.readFailed ([] ++ [[7]].flatten) [])
        = some 1 :=
  ⟨by decide,
   (read_error_aborts_server [[7]] [] [] true
     [AcceptEvent.conn ⟨[ReadEvent.ok []], [], true⟩] [] [] (by decide)).1,
   (read_error_aborts_server [[7]] [] [] true
     [AcceptEvent.conn ⟨[ReadEvent.ok []], [], true⟩] [] [] (by decide)).2⟩

/-- C5: a forwarding operation that writes fewer bytes than the `n > 0`
bytes just read aborts the whole server process with a non-zero exit; no
retry with the remaining bytes happens (the remaining scripts `rtl`, `wtl`,
`rest` are never consumed) and nothing is silently truncated — at the
abort, stdout holds exactly the fully forwarded chunks plus the `w` bytes
the short write itself deposited. -/
theorem short_write_aborts_server (chunks : List (List Byte)) (d : List Byte)
    (w : Int) (rtl : List ReadEvent) (wtl : List Int) (ck : Bool)
    (rest : List AcceptEvent) (sink : List Byte) (logs : List String)
    (hnz : ∀ c ∈ chunks, c ≠ []) (hd : d ≠ []) (hw0 : 0 ≤ w)
    (hw : w < (d.length : Int)) :
    serveConns (AcceptEvent.conn ⟨chunks.map ReadEvent.ok ++ ReadEvent.ok d :: rtl,
        chunks.map (fun c => (c.length : Int)) ++ w :: wtl, ck⟩ :: rest) sink logs
      = some (ServerOutcome.aborted Fault.writeFailed
          ((sink ++ chunks.flatten) ++ d.take w.toNat) logs)
    ∧ exitCodeOf (ServerOutcome.aborted Fault.writeFailed
          ((sink ++ chunks.flatten) ++ d.take w.toNat) logs)
        = some 1 := by
  have hwne : w ≠ (d.length : Int) := by omega
  have hrel := relay_through_chunks chunks (ReadEvent.ok d :: rtl) (w :: wtl) sink hnz
  exact ⟨by simp [serveConns, hrel, relay, hd, hwne], rfl⟩

/-- Witness for C5: a two-byte read answered by a one-byte write; the one
deposited byte is on the sink at the abort. -/
theorem short_write_aborts_server_witness :
    (∀ c ∈ ([] : List (List Byte)), c ≠ []) ∧ ([5, 6] : List Byte) ≠ []
    ∧ (0 : Int) ≤ 1 ∧ (1 : Int) < (([5, 6] : List Byte).length : Int)
    ∧ serveConns (AcceptEvent.conn ⟨([] : List (List Byte)).map ReadEvent.ok
          ++ ReadEvent.ok [5, 6] :: [],
        ([] : List (List Byte)).map (fun c => (c.length : Int)) ++ (1 : Int) :: [],
        true⟩ :: []) [] []
      = some (ServerOutcome.aborted Fault.writeFailed
          (([] ++ ([] : List (List Byte)).flatten)
            ++ ([5, 6] : List Byte).take (1 : Int).toNat) []) :=
  ⟨by decide, by decide, by decide, by decide,
   (short_write_aborts_server [] [5, 6] 1 [] [] true [] [] []
     (by decide) (by decide) (by decide) (by decide)).1⟩

/-- C9 as stated is refuted: a failed write (`-1`) and a short write are
not indistinguishable at the process boundary.  At this concrete input both
abort through the same `fatal("partial/failed write")` path, but the short
write of one byte out of two has deposited that byte on stdout, while the
failed write has deposited nothing, so the two outcomes differ. -/
theorem write_error_short_write_sink_differs :
    serveConns [AcceptEvent.conn ⟨[ReadEvent.ok [5, 6]], [(-1 : Int)], true⟩] [] []
      = some (ServerOutcome.aborted Fault.writeFailed [] [])
    ∧ serveConns [AcceptEvent.conn ⟨[ReadEvent.ok [5, 6]], [(1 : Int)], true⟩] [] []
      = some (ServerOutcome.aborted Fault.writeFailed [5] [])
    ∧ serveConns [AcceptEvent.conn ⟨[ReadEvent.ok [5, 6]], [(-1 : Int)], true⟩] [] []
      ≠ serveConns [AcceptEvent.conn ⟨[ReadEvent.ok [5, 6]], [(1 : Int)], true⟩] [] [] := by
  decide

/-- C9 (amended): a `write` that fails outright (returns `-1`) at a chunk
of `n > 0` bytes is handled by the very same branch as a short write: both
abort the whole process through `fatal("partial/failed write")`, with the
same fault and the same non-zero exit code; but the two need not be
indistinguishable at the process boundary, since the failed write deposits
nothing on the sink while a short write of `w` bytes has already deposited
those `w` bytes when `fatal` fires. -/
theorem write_error_same_fault_as_short_write (d : List Byte) (w : Int)
    (rtl rtl2 : List ReadEvent) (wtl wtl2 : List Int) (ck ck2 : Bool)
    (rest rest2 : List AcceptEvent) (sink : List Byte) (logs : List String)
    (hd : d ≠ []) (hw0 : 0 ≤ w) (hw : w < (d.length : Int)) :
    serveConns (AcceptEvent.conn ⟨ReadEvent.ok d :: rtl, (-1 : Int) :: wtl, ck⟩
        :: rest) sink logs
      = some (ServerOutcome.aborted Fault.writeFailed sink logs)
    ∧ serveConns (AcceptEvent.conn ⟨ReadEvent.ok d :: rtl2, w :: wtl2, ck2⟩
        :: rest2) sink logs
      = some (ServerOutcome.aborted Fault.writeFailed (sink ++ d.take w.toNat) logs)
    ∧ exitCodeOf (ServerOutcome.aborted Fault.writeFailed sink logs)
      = exitCodeOf (ServerOutcome.aborted Fault.writeFailed (sink ++ d.take w.toNat) logs) := by
  have hne : (-1 : Int) ≠ (d.length : Int) := by
    have : (0 : Int) ≤ (d.length : Int) := Int.natCast_nonneg _
    omega
  have hwne : w ≠ (d.length : Int) := by omega
  refine ⟨?_, by simp [serveConns, relay, hd, hwne], rfl⟩
  simp [serveConns, relay, hd, hne]

/-- Witness for the amended C9: failed write versus a genuine short write
of one byte out of two. -/
theorem write_error_same_fault_as_short_write_witness :
    ([5, 6] : List Byte) ≠ [] ∧ (0 : Int) ≤ 1
    ∧ (1 : Int) < (([5, 6] : List Byte).length : Int)
    ∧ serveConns (AcceptEvent.conn ⟨ReadEvent.ok [5, 6] :: [], (-1 : Int) :: [], true⟩
        :: []) [] []
      = some (ServerOutcome.aborted Fault.writeFailed [] [])
    ∧ serveConns (AcceptEvent.conn ⟨ReadEvent.ok [5, 6] :: [], (1 : Int) :: [], false⟩
        :: []) [] []
      = some (ServerOutcome.aborted Fault.writeFailed
          ([] ++ ([5, 6] : List Byte).take (1 : Int).toNat) []) :=
  ⟨by decide, by decide, by decide,
   (write_error_same_fault_as_short_write [5, 6] 1 [] [] [] [] true false [] [] [] []
     (by decide) (by decide) (by decide)).1,
   ((write_error_same_fault_as_short_write [5, 6] 1 [] [] [] [] true false [] [] [] []
     (by decide) (by decide) (by decide)).2).1⟩

/-- C6: after a relay pass ends via a read returning zero, the server
continues to the next accept-loop iteration whether the close succeeded or
failed; a close failure only appends a log entry and is never fatal. -/
theorem close_failure_only_logged (c : Conn) (rest : List AcceptEvent)
    (sink out : List Byte) (logs : List String)
    (h : relay c.reads c.writes sink = some (RelayResult.doneEof out)) :
    serveConns (AcceptEvent.conn c :: rest) sink logs
      = serveConns rest out (logs ++ (if c.closeOk then [] else ["close"])) := by
  simp [serveConns, h]

/-- Witness for C6 at a connection whose close fails: the server is back
serving the remaining script, with one logged diagnostic. -/
theorem close_failure_only_logged_witness :
    relay (Conn.mk [ReadEvent.ok []] [] false).reads
        (Conn.mk [ReadEvent.ok []] [] false).writes []
      = some (RelayResult.doneEof [])
    ∧ serveConns (AcceptEvent.conn (Conn.mk [ReadEvent.ok []] [] false)
        :: [AcceptEvent.conn (Conn.mk [ReadEvent.ok []] [] true)]) [] []
      = serveConns [AcceptEvent.conn (Conn.mk [ReadEvent.ok []] [] true)] []
          ([] ++ (if (Conn.mk [ReadEvent.ok []] [] false).closeOk then [] else ["close"])) :=
  ⟨by decide,
   close_failure_only_logged (Conn.mk [ReadEvent.ok []] [] false)
     [AcceptEvent.conn (Conn.mk [ReadEvent.ok []] [] true)] [] [] [] (by decide)⟩

/-- C8: well-behaved connections served from the accept-loop script are
processed strictly sequentially, and the sink ends up holding each
connection's full payload as a contiguous block, in acceptance order, with
no interleaving and no delimiter between connections. -/
theorem sequential_relay_order (l : List (List (List Byte) × Bool))
    (sink : List Byte) (logs : List String)
    (hnz : ∀ p ∈ l, ∀ c ∈ p.1, c ≠ []) :
    serveConns (l.map (fun p => AcceptEvent.conn (connOf p.1 p.2))) sink logs
      = some (ServerOutcome.awaitingAccept
          (sink ++ (l.map (fun p => p.1.flatten)).flatten)
          (logs ++ closeLogs l)) := by
  induction l generalizing sink logs with
  | nil => simp [serveConns, closeLogs]
  | cons p ps ih =>
      have h1 : relay (p.1.map ReadEvent.ok ++ [ReadEvent.ok []])
          (p.1.map (fun c => (c.length : Int))) sink
          = some (RelayResult.doneEof (sink ++ p.1.flatten)) := by
        have h0 := relay_through_chunks p.1 [ReadEvent.ok []] [] sink
          (fun c hc => hnz p (by simp) c hc)
        simpa [relay] using h0
      have ih2 := ih (sink ++ p.1.flatten)
        (logs ++ (if p.2 then [] else ["close"]))
        (fun q hq => hnz q (by simp [hq]))
      simp only [connOf] at ih2
      simp only [List.map_cons, serveConns, connOf, h1, closeLogs]
      rw [ih2]
      simp [List.append_assoc]

/-- Witness for C8 at the spec's example scenario: payloads `A` then `BB`,
arriving on two sequential connections. -/
theorem sequential_relay_order_witness :
    (∀ p ∈ ([([[65]], true), ([[66, 66]], false)] : List (List (List Byte) × Bool)),
      ∀ c ∈ p.1, c ≠ [])
    ∧ serveConns (([([[65]], true), ([[66, 66]], false)]
          : List (List (List Byte) × Bool)).map
            (fun p => AcceptEvent.conn (connOf p.1 p.2))) [] []
      = some (ServerOutcome.awaitingAccept
          ([] ++ (([([[65]], true), ([[66, 66]], false)]
            : List (List (List Byte) × Bool)).map (fun p => p.1.flatten)).flatten)
          ([] ++ closeLogs [([[65]], true), ([[66, 66]], false)])) :=
  ⟨by decide,
   sequential_relay_order [([[65]], true), ([[66, 66]], false)] [] [] (by decide)⟩

/-! ### C10: construction of the bind address structure -/

/-- C10: when the configured path's length is at most
`sizeof(addr.sun_path) - 1`, the `sun_path` region handed to `bind` holds
exactly the configured path, NUL-terminated, with every remaining byte
zero — no silent truncation before binding. -/
theorem sun_path_exact (path : List Byte) (sz : Nat)
    (hsz : 1 ≤ sz) (hfit : path.length ≤ sz - 1) :
    sunPathBytes path sz
      = path ++ 0 :: List.replicate (sz - path.length - 1) 0 := by
  unfold sunPathBytes strncpyOn memsetSunPath
  rw [List.take_of_length_le hfit, List.drop_replicate, List.append_assoc]
  congr 1
  rw [← List.replicate_add]
  have h1 : (sz - 1 - path.length) + (sz - (sz - 1)) = sz - path.length := by omega
  have h2 : sz - path.length = (sz - path.length - 1) + 1 := by omega
  rw [h1, h2, List.replicate_succ]
  simp

/-- Witness for C10 at a concrete path and the Linux `sun_path` size. -/
theorem sun_path_exact_witness :
    1 ≤ 108 ∧ ([47, 116] : List Byte).length ≤ 108 - 1
    ∧ sunPathBytes [47, 116] 108
        = [47, 116] ++ 0 :: List.replicate (108 - ([47, 116] : List Byte).length - 1) 0 :=
  ⟨by decide, by decide, sun_path_exact [47, 116] 108 (by decide) (by decide)⟩

/-! ### C3, C4: ordering of the setup phase

In the source, `socket()` is the first call of `main` (line 35); the
path-length check (line 45) and `remove` (line 49) come after it.  So at
the moment either of those fails, a socket resource already exists. -/

/-- C3 as stated is refuted: at this concrete configuration the startup
fails with the AddressTooLong fault, yet a socket resource already exists
at that moment, because `socket()` precedes the length check in `main`. -/
theorem socket_exists_at_pathTooLong :
    (setup ⟨true, RemoveResult.removedOk, true, true⟩ (List.replicate 109 97) 108).2
        = SetupResult.fatal SetupFault.pathTooLong
    ∧ SetupStep.socketCreated
        ∈ (setup ⟨true, RemoveResult.removedOk, true, true⟩ (List.replicate 109 97) 108).1 := by
  decide

/-- C3 (amended): if the configured bind address exceeds
`sizeof(addr.sun_path) - 1`, startup fails with a non-zero exit before any
filesystem entry is created or removed and before bind or listen; the only
resource action already performed is the creation of the socket itself. -/
theorem pathTooLong_fails_before_removal (env : SetupEnv) (path : List Byte)
    (sz : Nat) (hs : env.socketOk = true) (hlong : path.length > sz - 1) :
    setup env path sz
      = ([SetupStep.socketCreated], SetupResult.fatal SetupFault.pathTooLong)
    ∧ setupExitCode (setup env path sz).2 = some 1 := by
  refine ⟨by simp [setup, hs, hlong], ?_⟩
  simp [setup, hs, hlong, setupExitCode]

/-- Witness for the amended C3 at a 109-byte path and the Linux limit. -/
theorem pathTooLong_fails_before_removal_witness :
    (⟨true, RemoveResult.errNoEnt, true, true⟩ : SetupEnv).socketOk = true
    ∧ (List.replicate 109 97).length > 108 - 1
    ∧ setup ⟨true, RemoveResult.errNoEnt, true, true⟩ (List.replicate 109 97) 108
        = ([SetupStep.socketCreated], SetupResult.fatal SetupFault.pathTooLong) :=
  ⟨rfl, by decide,
   (pathTooLong_fails_before_removal ⟨true, RemoveResult.errNoEnt, true, true⟩
     (List.replicate 109 97) 108 rfl (by decide)).1⟩

/-- C4 as stated is refuted: a removal failure other than absence is
setup-fatal, but it does not occur before any socket is created — the
trace shows the socket already exists when `remove` fails. -/
theorem socket_exists_at_removeFailed :
    (setup ⟨true, RemoveResult.errOther, true, true⟩ [97] 108)
        = ([SetupStep.socketCreated], SetupResult.fatal SetupFault.removeFailed)
    ∧ SetupStep.socketCreated
        ∈ (setup ⟨true, RemoveResult.errOther, true, true⟩ [97] 108).1 := by
  decide

/-- C4 (amended): removal that fails because the entry is already absent
is not an error — the setup outcome is the same as if the removal had
succeeded, and startup proceeds; removal failing for any other reason is
setup-fatal with a non-zero exit, occurring before bind and listen (only
the socket, created first, exists at that point). -/
theorem stale_removal_policy (env : SetupEnv) (path : List Byte) (sz : Nat)
    (hs : env.socketOk = true) (hfit : path.length ≤ sz - 1) :
    ((setup {env with removeRes := RemoveResult.errNoEnt} path sz).2
        = (setup {env with removeRes := RemoveResult.removedOk} path sz).2)
    ∧ setup {env with removeRes := RemoveResult.errOther} path sz
        = ([SetupStep.socketCreated], SetupResult.fatal SetupFault.removeFailed)
    ∧ setupExitCode (SetupResult.fatal SetupFault.removeFailed) = some 1 := by
  have hnl : ¬ path.length > sz - 1 := by omega
  refine ⟨?_, by simp [setup, hs, hnl], rfl⟩
  simp only [setup, hs, hnl]
  cases hb : env.bindOk <;> cases hl : env.listenOk <;> simp [hb, hl]

/-- Witness for the amended C4 at a concrete configuration. -/
theorem stale_removal_policy_witness :
    (⟨true, RemoveResult.removedOk, true, true⟩ : SetupEnv).socketOk = true
    ∧ ([47, 97] : List Byte).length ≤ 108 - 1
    ∧ setup ⟨true, RemoveResult.errOther, true, true⟩ [47, 97] 108
        = ([SetupStep.socketCreated], SetupResult.fatal SetupFault.removeFailed) :=
  ⟨rfl, by decide,
   ((stale_removal_policy ⟨true, RemoveResult.removedOk, true, true⟩ [47, 97] 108
     rfl (by decide)).2).1⟩

end UsXfr
